import Mathlib

/-!
Verification development for the weather-market arbitrage engine
(`analysis/arbitrage.py`, `analysis/portfolio.py`).

The Python source is shallowly embedded:
* parsed temperatures and quoted prices (Python floats holding exact decimal
  inputs) are modelled as rationals `ℚ`;
* probabilities produced through `math.erf` are modelled as reals `ℝ`, with
  `erf` defined by its integral formula;
* code that can raise an uncaught exception is modelled in `Except PyErr`;
  a caught `try/except` is modelled with `Option`;
* `re.search` for the three fixed bucket patterns is modelled by a
  position-by-position matcher.  For these patterns greedy backtracking and
  the deterministic longest-munch matcher coincide: every quantified piece
  (`-?`, `\d+`, `[°]?`, `[CF]?`) is followed by context that cannot consume
  the same character, so the first (maximal) choice is the only viable one.
-/

namespace WeatherArb

/-! ### Question parser (`arbitrage.py::parse_bucket_question`) -/

/-- Digits of a numeral to a natural number. -/
def digitsToNat (ds : List Char) : Nat :=
  ds.foldl (fun n c => n * 10 + (c.toNat - 48)) 0

/-- Match the regex fragment `(-?\d+)` at the head of the character list,
returning the captured value and the remaining characters. -/
def matchNum : List Char → Option (ℚ × List Char)
  | '-' :: rest =>
    let ds := rest.takeWhile Char.isDigit
    if ds.isEmpty then none
    else some (-(digitsToNat ds : ℚ), rest.dropWhile Char.isDigit)
  | cs =>
    let ds := cs.takeWhile Char.isDigit
    if ds.isEmpty then none
    else some ((digitsToNat ds : ℚ), cs.dropWhile Char.isDigit)

/-- Consume the optional degree sign, regex fragment `[°]?`. -/
def dropOptDegree : List Char → List Char
  | '°' :: rest => rest
  | cs => cs

/-- Consume the optional unit letter, regex fragment `[CF]?`. -/
def dropOptUnit : List Char → List Char
  | 'C' :: rest => rest
  | 'F' :: rest => rest
  | cs => cs

/-- Match `be (-?\d+)[°]?[CF]?<tail>` anchored at the current position. -/
def matchOneSidedAt (tail : List Char) (cs : List Char) : Option ℚ :=
  if "be ".toList.isPrefixOf cs then
    match matchNum (cs.drop 3) with
    | none => none
    | some (v, rest) =>
      if tail.isPrefixOf (dropOptUnit (dropOptDegree rest)) then some v else none
  else none

/-- `re.search` semantics: try the anchored pattern at each position, leftmost
match wins. -/
def searchOneSided (tail : List Char) : List Char → Option ℚ
  | [] => none
  | c :: rest =>
    match matchOneSidedAt tail (c :: rest) with
    | some v => some v
    | none => searchOneSided tail rest

/-- `re.search(r"be (-?\d+)[°]?[CF]? or below", question)`, captured value. -/
def searchBelow (cs : List Char) : Option ℚ :=
  searchOneSided " or below".toList cs

/-- `re.search(r"be (-?\d+)[°]?[CF]? or higher", question)`, captured value. -/
def searchAbove (cs : List Char) : Option ℚ :=
  searchOneSided " or higher".toList cs

/-- Match `between (-?\d+)-(-?\d+)[°]?[CF]?` anchored at the current position.
The trailing `[°]?[CF]?` is at the end of the pattern and optional, so it never
constrains acceptance and does not affect the captured groups. -/
def matchBetweenAt (cs : List Char) : Option (ℚ × ℚ) :=
  if "between ".toList.isPrefixOf cs then
    match matchNum (cs.drop 8) with
    | none => none
    | some (v1, rest1) =>
      match rest1 with
      | '-' :: rest2 =>
        match matchNum rest2 with
        | none => none
        | some (v2, _) => some (v1, v2)
      | _ => none
  else none

/-- `re.search(r"between (-?\d+)-(-?\d+)[°]?[CF]?", question)`, captures. -/
def searchBetween : List Char → Option (ℚ × ℚ)
  | [] => none
  | c :: rest =>
    match matchBetweenAt (c :: rest) with
    | some p => some p
    | none => searchBetween rest

/-- The two recognized temperature units. -/
inductive TempUnit
  | F
  | C
deriving DecidableEq, Repr

/-- A parsed temperature bucket: `{"min": …, "max": …, "unit": …}`. -/
structure Bucket where
  min : ℚ
  max : ℚ
  unit : TempUnit
deriving DecidableEq, Repr

/-- The Python substring test `pat in s`: `pat` occurs contiguously in `s`. -/
def strContains (pat : List Char) : List Char → Bool
  | [] => pat.isEmpty
  | c :: rest => pat.isPrefixOf (c :: rest) || strContains pat rest

/-- `"°F" in question or "F" in question` — Python substring containment. -/
def hasFahrenheitMark (q : List Char) : Bool :=
  strContains "°F".toList q || strContains "F".toList q

/-- `arbitrage.py::parse_bucket_question`: unit check, then the three
phrasings tried in order, first match wins. -/
def parse_bucket_question (question : String) : Option Bucket :=
  let q := question.toList
  let unit : TempUnit := if hasFahrenheitMark q then .F else .C
  match searchBelow q with
  | some v => some { min := -999, max := v, unit := unit }
  | none =>
    match searchAbove q with
    | some v => some { min := v, max := 999, unit := unit }
    | none =>
      match searchBetween q with
      | some (v1, v2) => some { min := v1, max := v2, unit := unit }
      | none => none

/-- `arbitrage.py::to_celsius`. -/
def to_celsius (val : ℚ) (unit : TempUnit) : ℚ :=
  match unit with
  | .C => val
  | .F => (val - 32) * 5 / 9

/-! ### Kelly sizing (`portfolio.py::calculate_kelly_bet`) -/

/-- `portfolio.py::calculate_kelly_bet`.  Guards, full Kelly fraction,
fractional multiplier, floor at 0 and cap at 1. -/
def calculate_kelly_bet (probability price bankroll_fraction : ℚ) : ℚ :=
  if price ≤ 0 ∨ 1 ≤ price then 0
  else if probability ≤ 0 ∨ 1 ≤ probability then 0
  else min 1 (max 0 ((probability - price) / (1 - price) * bankroll_fraction))

/-! ### Python field parsing primitives -/

/-- Whitespace skipped by `float(...)` and `json.loads`. -/
def skipWs (cs : List Char) : List Char :=
  cs.dropWhile fun c => c = ' ' || c = '\t' || c = '\n' || c = '\r'

/-- The Python `float(s)` on decimal text: optional surrounding whitespace, an
optional sign, digits with at most one decimal point.  Exotic float text
(exponents, `inf`, `nan`) is out of the model; a failed parse is `none`
(a raised `ValueError`, which every call site catches). -/
def pyFloat (s : String) : Option ℚ :=
  let cs := skipWs s.toList
  let signed : ℚ × List Char :=
    match cs with
    | '-' :: rest => (-1, rest)
    | '+' :: rest => (1, rest)
    | rest => (1, rest)
  let sgn := signed.1
  let body := signed.2
  let intDs := body.takeWhile Char.isDigit
  let afterInt := body.dropWhile Char.isDigit
  match afterInt with
  | '.' :: afterDot =>
    let fracDs := afterDot.takeWhile Char.isDigit
    let rest := afterDot.dropWhile Char.isDigit
    if intDs.isEmpty ∧ fracDs.isEmpty then none
    else if (skipWs rest).isEmpty then
      some (sgn * ((digitsToNat intDs : ℚ) + (digitsToNat fracDs : ℚ) / 10 ^ fracDs.length))
    else none
  | rest =>
    if intDs.isEmpty then none
    else if (skipWs rest).isEmpty then some (sgn * (digitsToNat intDs : ℚ))
    else none

/-- Read a JSON string body up to the closing quote (escapes are out of the
model; the fields parsed this way hold plain outcome names and decimal text). -/
def takeJsonStr : List Char → Option (List Char × List Char)
  | [] => none
  | '"' :: rest => some ([], rest)
  | c :: rest =>
    match takeJsonStr rest with
    | none => none
    | some (s, r) => some (c :: s, r)

/-- Comma-separated JSON string items up to the closing bracket. -/
def jsonItems : Nat → List Char → Option (List String)
  | 0, _ => none
  | fuel + 1, cs =>
    match skipWs cs with
    | '"' :: rest =>
      match takeJsonStr rest with
      | none => none
      | some (content, r1) =>
        match skipWs r1 with
        | ',' :: r2 =>
          match jsonItems fuel r2 with
          | none => none
          | some items => some (String.mk content :: items)
        | ']' :: r2 => if (skipWs r2).isEmpty then some [String.mk content] else none
        | _ => none
    | _ => none

/-- `json.loads` restricted to the shape these fields carry: a JSON array of
strings.  `none` models a raised `json.JSONDecodeError`. -/
def jsonStrList (s : String) : Option (List String) :=
  match skipWs s.toList with
  | '[' :: rest =>
    match skipWs rest with
    | ']' :: r2 => if (skipWs r2).isEmpty then some [] else none
    | _ => jsonItems (rest.length + 1) rest
  | _ => none

/-! ### Probability model (`arbitrage.py::calculate_probability_range`) -/

/-- The error function, `math.erf`. -/
noncomputable def erf (x : ℝ) : ℝ :=
  2 / Real.sqrt Real.pi * ∫ t in (0:ℝ)..x, Real.exp (-t ^ 2)

/-- `FORECAST_STD_DEV_C = 1.5`. -/
noncomputable def FORECAST_STD_DEV_C : ℝ := 1.5

/-- The inner closure `cdf` of `calculate_probability_range`. -/
noncomputable def gauss_cdf (forecast_val std_dev x : ℝ) : ℝ :=
  0.5 * (1 + erf ((x - forecast_val) / (std_dev * Real.sqrt 2)))

/-- `cdf(max_c) - cdf(min_c)`, the value returned when no error is raised. -/
noncomputable def prob_value (forecast_val min_c max_c std_dev : ℝ) : ℝ :=
  gauss_cdf forecast_val std_dev max_c - gauss_cdf forecast_val std_dev min_c

/-- `arbitrage.py::calculate_probability_range`.  The division
`(x - forecast_val) / (std_dev * math.sqrt(2))` raises `ZeroDivisionError` in
Python exactly when the denominator is zero; that is modelled by `none`. -/
noncomputable def calculate_probability_range (forecast_val min_c max_c std_dev : ℝ) :
    Option ℝ :=
  if std_dev * Real.sqrt 2 = 0 then none
  else some (prob_value forecast_val min_c max_c std_dev)

/-! ### Engine data model (`arbitrage.py::calculate_ev_for_event`) -/

/-- One Gamma market: the question plus the optional raw text fields the
analysis reads.  An absent dict key is `none`. -/
structure Market where
  question : String
  bestAsk : Option String := none
  bestBid : Option String := none
  outcomes : Option String := none
  outcomePrices : Option String := none
  id : Option String := none

/-- One event: a title and its markets. -/
structure Event where
  title : String
  markets : List Market

/-- Uncaught Python exceptions the function body can raise. -/
inductive PyErr
  | jsonDecodeError
  | typeError
  | zeroDivisionError
deriving DecidableEq, Repr

/-- A LONG recommendation dict.  The `bucket` display string
`f"{min} to {max} {unit}"` is modelled by carrying the bucket itself. -/
structure LongRec where
  market_question : String
  bucket : Bucket
  price : ℚ
  prob : ℝ
  ev : ℝ
  id : Option String

/-- A BET NO (short) recommendation dict. -/
structure ShortRec where
  market_question : String
  bucket : Bucket
  price : ℚ
  prob_win : ℝ
  ev : ℝ
  implied_yes_price : Option ℚ
  true_yes_prob : ℝ
  min_c : ℚ
  max_c : ℚ

/-- A blanket-coverage candidate dict. -/
structure BlanketCand where
  bucket : Bucket
  min_c : ℚ
  max_c : ℚ
  price : ℚ
  prob : ℝ
  ev : ℝ
  market_question : String

/-- `roi_str`: either the formatted finite percentage or the `"Inf%"`
sentinel. -/
inductive RoiDisplay
  | finite (roi : ℝ)
  | unbounded

/-- The blanket coverage strategy dict. -/
structure BlanketStrategy where
  buckets : List Bucket
  total_cost : ℝ
  total_prob : ℝ
  expected_profit_if_win : ℝ
  total_ev : ℝ
  roi_display : RoiDisplay

/-- The result dict of `calculate_ev_for_event`. -/
structure EvResult where
  bets : List LongRec
  strategy : Option BlanketStrategy
  shorts : List ShortRec

/-- The caught fallback chain
`outcomes.index("Yes")`, `outcome_prices[yes_idx]`, `float(...)`:
any failure is caught by the surrounding `try/except`. -/
def fallbackYesPrice (outcomes outcome_prices : List String) : Option ℚ := do
  let i ← outcomes.findIdx? (· == "Yes")
  let s ← outcome_prices[i]?
  pyFloat s

/-- The shared fallback price chain (the `if price … is None:` block): the two
`json.loads` calls run outside any `try` (an uncaught `JSONDecodeError` on
malformed text), then the caught chain of `fallbackYesPrice`; a caught failure
is `continue`, i.e. `.ok none`. -/
def fallbackPrice (market : Market) : Except PyErr (Option ℚ) :=
  match jsonStrList (market.outcomes.getD "[]") with
  | none => .error .jsonDecodeError
  | some outcomes =>
    match jsonStrList (market.outcomePrices.getD "[]") with
    | none => .error .jsonDecodeError
    | some outcome_prices =>
      match fallbackYesPrice outcomes outcome_prices with
      | none => .ok none
      | some price => .ok (some price)

/-- Long-pass quote resolution (`try: price_buy_yes = float(market["bestAsk"])
…` guarded by presence of both `bestAsk` and `bestBid`): the parsed ask, or
`none` when the keys are missing or `float` raised (caught). -/
def longQuote (bestAsk bestBid : Option String) : Option ℚ :=
  match bestAsk, bestBid with
  | some a, some _ => pyFloat a
  | _, _ => none

/-- Blanket-pass quote resolution: `bestAsk` alone, `try/except: pass`. -/
def askQuote (bestAsk : Option String) : Option ℚ :=
  match bestAsk with
  | some a => pyFloat a
  | none => none

/-- Long-pass price: quote if parseable, else the fallback chain. -/
def longPrice (market : Market) : Except PyErr (Option ℚ) :=
  match longQuote market.bestAsk market.bestBid with
  | some price => .ok (some price)
  | none => fallbackPrice market

/-- Blanket-pass price: `bestAsk` if parseable, else the fallback chain. -/
def blanketPrice (market : Market) : Except PyErr (Option ℚ) :=
  match askQuote market.bestAsk with
  | some price => .ok (some price)
  | none => fallbackPrice market

/-- Long-pass validation: `if price_buy_yes > 0: … if ev_long > 0.05: append`. -/
noncomputable def longCheck (market : Market) (bucket : Bucket) (price_buy_yes : ℚ)
    (true_prob : ℝ) : Option LongRec :=
  if 0 < price_buy_yes then
    if true_prob - price_buy_yes > 0.05 then
      some { market_question := market.question, bucket := bucket,
             price := price_buy_yes, prob := true_prob,
             ev := true_prob - (price_buy_yes : ℝ), id := market.id }
    else none
  else none

/-- Long-pass loop body (lines 106–196 of `arbitrage.py`).  `.ok none` is a
skipped market (`continue` or a failed validation); `.error` is an uncaught
exception.  `price_buy_no` is also computed by the source at this point but
never used by the long pass, so it is not materialised here. -/
noncomputable def longBody (forecast_max : ℝ) (market : Market) :
    Except PyErr (Option LongRec) :=
  match parse_bucket_question market.question with
  | none => .ok none
  | some bucket =>
    match calculate_probability_range forecast_max (to_celsius bucket.min bucket.unit)
        (to_celsius bucket.max bucket.unit) FORECAST_STD_DEV_C with
    | none => .error .zeroDivisionError
    | some true_prob =>
      match longPrice market with
      | .error e => .error e
      | .ok none => .ok none
      | .ok (some price_buy_yes) => .ok (longCheck market bucket price_buy_yes true_prob)

/-- Blanket-pass candidate admission: `if price <= 0: continue`, else append. -/
noncomputable def blanketCheck (market : Market) (bucket : Bucket) (min_c max_c price : ℚ)
    (prob : ℝ) : Option BlanketCand :=
  if price ≤ 0 then none
  else some { bucket := bucket, min_c := min_c, max_c := max_c, price := price,
              prob := prob, ev := prob - (price : ℝ), market_question := market.question }

/-- Blanket-pass loop body (lines 206–245 of `arbitrage.py`). -/
noncomputable def blanketBody (forecast_max : ℝ) (market : Market) :
    Except PyErr (Option BlanketCand) :=
  match parse_bucket_question market.question with
  | none => .ok none
  | some bucket =>
    if ((to_celsius bucket.min bucket.unit : ℚ) : ℝ)
          < forecast_max + 1.5 * FORECAST_STD_DEV_C
        ∧ ((to_celsius bucket.max bucket.unit : ℚ) : ℝ)
          > forecast_max - 1.5 * FORECAST_STD_DEV_C then
      match calculate_probability_range forecast_max (to_celsius bucket.min bucket.unit)
          (to_celsius bucket.max bucket.unit) FORECAST_STD_DEV_C with
      | none => .error .zeroDivisionError
      | some prob =>
        match blanketPrice market with
        | .error e => .error e
        | .ok none => .ok none
        | .ok (some price) =>
          .ok (blanketCheck market bucket (to_celsius bucket.min bucket.unit)
            (to_celsius bucket.max bucket.unit) price prob)
    else .ok none

/-- Short-pass quote resolution: `(price_buy_no, implied_yes_price)` from
`bestBid` under `try/except: pass`, requiring `bid > 0`. -/
def shortQuote (bestBid : Option String) : Option ℚ × Option ℚ :=
  match bestBid with
  | some b =>
    match pyFloat b with
    | some bid => if 0 < bid then (some (1 - bid), some bid) else (none, none)
    | none => (none, none)
  | none => (none, none)

/-- Short-pass validation after a price was resolved:
`if price_buy_no > 0.995: continue`, then `if ev_no > 0.10: append`. -/
noncomputable def shortCheck (market : Market) (bucket : Bucket)
    (min_c max_c price_buy_no : ℚ) (implied_yes_price : Option ℚ)
    (true_prob_yes : ℝ) : Option ShortRec :=
  if price_buy_no > 0.995 then none
  else
    if (1 - true_prob_yes) - price_buy_no > 0.10 then
      some { market_question := market.question, bucket := bucket,
             price := price_buy_no, prob_win := 1 - true_prob_yes,
             ev := (1 - true_prob_yes) - (price_buy_no : ℝ),
             implied_yes_price := implied_yes_price,
             true_yes_prob := true_prob_yes, min_c := min_c, max_c := max_c }
    else none

/-- Short-pass loop body (lines 276–337 of `arbitrage.py`).  When `bestBid` is
present but does not parse to a positive float and the fallback `try` block
completes, the source falls through to `price_buy_no > 0.995` with
`price_buy_no` still `None`, raising `TypeError`. -/
noncomputable def shortBody (forecast_max : ℝ) (market : Market) :
    Except PyErr (Option ShortRec) :=
  match parse_bucket_question market.question with
  | none => .ok none
  | some bucket =>
    match calculate_probability_range forecast_max (to_celsius bucket.min bucket.unit)
        (to_celsius bucket.max bucket.unit) FORECAST_STD_DEV_C with
    | none => .error .zeroDivisionError
    | some true_prob_yes =>
      match shortQuote market.bestBid with
      | (some price_buy_no, implied_yes_price) =>
        .ok (shortCheck market bucket (to_celsius bucket.min bucket.unit)
          (to_celsius bucket.max bucket.unit) price_buy_no implied_yes_price true_prob_yes)
      | (none, _) =>
        match jsonStrList (market.outcomes.getD "[]") with
        | none => .error .jsonDecodeError
        | some outcomes =>
          match jsonStrList (market.outcomePrices.getD "[]") with
          | none => .error .jsonDecodeError
          | some outcome_prices =>
            match fallbackYesPrice outcomes outcome_prices with
            | none => .ok none
            | some _ =>
              if market.bestBid.isSome then .error .typeError
              else .ok none

/-- The per-market iteration pattern shared by the three passes: skip on
`.ok none`, collect on `.ok (some _)`, abort the whole analysis on
`.error`. -/
def pyLoop {α β : Type _} (f : α → Except PyErr (Option β)) : List α → Except PyErr (List β)
  | [] => .ok []
  | m :: rest =>
    match f m with
    | .error e => .error e
    | .ok none => pyLoop f rest
    | .ok (some r) =>
      match pyLoop f rest with
      | .error e => .error e
      | .ok rs => .ok (r :: rs)

/-- `recommendations.sort(key=ev, reverse=True)`. -/
noncomputable def sortLongsByEvDesc (l : List LongRec) : List LongRec :=
  @List.insertionSort LongRec (fun a b => b.ev ≤ a.ev) (Classical.decRel _) l

/-- `short_recommendations.sort(key=ev, reverse=True)`. -/
noncomputable def sortShortsByEvDesc (l : List ShortRec) : List ShortRec :=
  @List.insertionSort ShortRec (fun a b => b.ev ≤ a.ev) (Classical.decRel _) l

/-- `coverage_candidates.sort(key=min_c)`. -/
def sortCandsByMinC (l : List BlanketCand) : List BlanketCand :=
  List.insertionSort (fun a b => a.min_c ≤ b.min_c) l

/-- Strategy aggregation (lines 249–270 of `arbitrage.py`). -/
noncomputable def blanketStrategy (coverage_candidates : List BlanketCand) :
    Option BlanketStrategy :=
  if coverage_candidates.isEmpty then none
  else
    let total_cost : ℝ := (coverage_candidates.map fun c => ((c.price : ℝ))).sum
    let total_prob : ℝ := (coverage_candidates.map fun c => c.prob).sum
    let total_ev : ℝ := (coverage_candidates.map fun c => c.ev).sum
    if total_ev > 0.05 then
      some { buckets := coverage_candidates.map fun c => c.bucket,
             total_cost := total_cost,
             total_prob := total_prob,
             expected_profit_if_win := 1 - total_cost,
             total_ev := total_prob - total_cost,
             roi_display :=
               if total_cost > 0 then .finite (total_ev / total_cost * 100)
               else .unbounded }
    else none

set_option linter.unusedVariables false in
/-- `arbitrage.py::calculate_ev_for_event`: the three passes in source order;
`forecast_min` is accepted and never read, as in the source. -/
noncomputable def calculate_ev_for_event (event : Event) (forecast_max forecast_min : ℝ) :
    Except PyErr EvResult :=
  match pyLoop (longBody forecast_max) event.markets with
  | .error e => .error e
  | .ok recs =>
    let recommendations := sortLongsByEvDesc recs
    match pyLoop (blanketBody forecast_max) event.markets with
    | .error e => .error e
    | .ok cands =>
      let coverage_candidates := sortCandsByMinC cands
      let strategy := blanketStrategy coverage_candidates
      match pyLoop (shortBody forecast_max) event.markets with
      | .error e => .error e
      | .ok shorts =>
        .ok { bets := recommendations, strategy := strategy,
              shorts := sortShortsByEvDesc shorts }

/-- A market whose `bestBid` is present but non-numeric while its fallback
fields are well formed and list a "Yes" outcome: the short pass of the source
falls through its `try` block with `price_buy_no` still `None` and crashes
comparing `None > 0.995`. -/
def C1_market : Market :=
  { question := "Will the highest temperature in NYC be 41°F or below?",
    bestBid := some "n/a",
    outcomes := some "[\"Yes\", \"No\"]",
    outcomePrices := some "[\"0.5\", \"0.5\"]" }

/-- One-market event around `C1_market`. -/
def C1_event : Event :=
  { title := "Highest temperature in NYC on January 14?", markets := [C1_market] }

/-- A fully priced market whose single bucket spans the whole sentinel range,
used to exhibit a concrete analysis that emits a blanket strategy. -/
def W_question : String :=
  "Will the highest temperature in Testville be between -999-999°C?"

/-- The bucket `W_question` parses to. -/
def W_bucket : Bucket := { min := -999, max := 999, unit := TempUnit.C }

/-- Cheap ask, firm bid: the long and blanket passes price it from the ask. -/
def W_market : Market :=
  { question := W_question, bestAsk := some "0.01", bestBid := some "0.9" }

/-- One-market event around `W_market`. -/
def W_event : Event :=
  { title := "Highest temperature in Testville on January 14?",
    markets := [W_market] }

/-- The model probability of the all-covering bucket at forecast 0. -/
noncomputable def W_prob : ℝ :=
  prob_value 0 (((-999 : ℚ)) : ℝ) (((999 : ℚ)) : ℝ) FORECAST_STD_DEV_C

/-- The long recommendation the analysis of `W_event` emits. -/
noncomputable def W_longrec : LongRec :=
  { market_question := W_question, bucket := W_bucket, price := 1/100,
    prob := W_prob, ev := W_prob - ((1/100 : ℚ) : ℝ), id := none }

/-- The coverage candidate the analysis of `W_event` collects. -/
noncomputable def W_cand : BlanketCand :=
  { bucket := W_bucket, min_c := -999, max_c := 999, price := 1/100,
    prob := W_prob, ev := W_prob - ((1/100 : ℚ) : ℝ),
    market_question := W_question }

/-- The result of analysing `W_event` at forecast 0. -/
noncomputable def W_res : EvResult :=
  { bets := sortLongsByEvDesc [W_longrec],
    strategy := blanketStrategy (sortCandsByMinC [W_cand]),
    shorts := sortShortsByEvDesc [] }

/-- The strategy `blanketStrategy` assembles from the single candidate. -/
noncomputable def W_strat : BlanketStrategy :=
  { buckets := (sortCandsByMinC [W_cand]).map fun c => c.bucket,
    total_cost := ((sortCandsByMinC [W_cand]).map fun c => ((c.price : ℚ) : ℝ)).sum,
    total_prob := ((sortCandsByMinC [W_cand]).map fun c => c.prob).sum,
    expected_profit_if_win :=
      1 - ((sortCandsByMinC [W_cand]).map fun c => ((c.price : ℚ) : ℝ)).sum,
    total_ev := ((sortCandsByMinC [W_cand]).map fun c => c.prob).sum
      - ((sortCandsByMinC [W_cand]).map fun c => ((c.price : ℚ) : ℝ)).sum,
    roi_display :=
      if ((sortCandsByMinC [W_cand]).map fun c => ((c.price : ℚ) : ℝ)).sum > 0 then
        RoiDisplay.finite (((sortCandsByMinC [W_cand]).map fun c => c.ev).sum
          / ((sortCandsByMinC [W_cand]).map fun c => ((c.price : ℚ) : ℝ)).sum * 100)
      else RoiDisplay.unbounded }

/-- Modelled from the spec: "Unit is inferred from presence of a Fahrenheit
marker anywhere in the text (degree-F symbol or a standalone F)".  A
standalone `F` is one not glued to letters on either side. -/
def standaloneFAux : Option Char → List Char → Bool
  | _, [] => false
  | prev, c :: rest =>
    if (c == 'F')
        && (match prev with | some p => !p.isAlpha | none => true)
        && (match rest with | r :: _ => !r.isAlpha | [] => true) then
      true
    else standaloneFAux (some c) rest

/-- Modelled from the spec: the Fahrenheit marker of §4.1 — a degree-F symbol
or a standalone letter `F`. -/
def spec_fahrenheit_marker (q : List Char) : Bool :=
  strContains "°F".toList q || standaloneFAux none q

/-! ## Sanity checks

Docstring examples of `parse_bucket_question`, the spec §8 round trips, and
the field-parsing primitives on representative raw inputs. -/

example : parse_bucket_question "Will it be 41°F or below today?" =
    some { min := -999, max := 41, unit := .F } := by decide

example : parse_bucket_question "Will it be 52°F or higher today?" =
    some { min := 52, max := 999, unit := .F } := by decide

example : parse_bucket_question "Will it be between 42-43°F today?" =
    some { min := 42, max := 43, unit := .F } := by decide

example : parse_bucket_question "no bucket here" = none := by decide

example : to_celsius 32 .F = 0 := by norm_num [to_celsius]

example : to_celsius 212 .F = 100 := by norm_num [to_celsius]

example : calculate_kelly_bet (6/10) (4/10) 1 = 1/3 := by
  norm_num [calculate_kelly_bet]

example : calculate_kelly_bet (3/10) (4/10) 1 = 0 := by
  norm_num [calculate_kelly_bet]

example : pyFloat "0.15" = some (15/100) := by
  simp [pyFloat, skipWs, digitsToNat]
  norm_num

example : pyFloat "n/a" = none := by decide

example : pyFloat "-2" = some (-2) := by simp [pyFloat, skipWs, digitsToNat]

example : jsonStrList "[]" = some [] := by decide

example : jsonStrList "[\"Yes\", \"No\"]" = some ["Yes", "No"] := by decide

example : jsonStrList "oops" = none := by decide

/-! ## Parser structure lemmas -/

/-- Any accepted question produced its bucket through exactly one of the three
searchers, and the unit is the Fahrenheit-mark conditional. -/
theorem parse_bucket_question_cases (s : String) (b : Bucket)
    (h : parse_bucket_question s = some b) :
    b.unit = (if hasFahrenheitMark s.toList then TempUnit.F else TempUnit.C)
    ∧ ((∃ v, searchBelow s.toList = some v ∧ b.min = -999 ∧ b.max = v)
      ∨ (∃ v, searchAbove s.toList = some v ∧ b.min = v ∧ b.max = 999)
      ∨ (∃ v w, searchBetween s.toList = some (v, w) ∧ b.min = v ∧ b.max = w)) := by
  unfold parse_bucket_question at h
  dsimp only at h
  split at h
  · rename_i v hv
    cases h
    exact ⟨rfl, Or.inl ⟨v, hv, rfl, rfl⟩⟩
  · split at h
    · rename_i v hv
      cases h
      exact ⟨rfl, Or.inr (Or.inl ⟨v, hv, rfl, rfl⟩)⟩
    · split at h
      · rename_i v w hvw
        cases h
        exact ⟨rfl, Or.inr (Or.inr ⟨v, w, hvw, rfl, rfl⟩)⟩
      · cases h

/-! ## Claim C2 — unit inference -/

/-- C2, counterexample: in
"Will the highest temperature in Fairbanks be between 10-12°C?" the only
capital F sits inside the city name and the temperature is written with °C,
yet the code labels the bucket Fahrenheit, because the source tests the plain
substring "F" rather than a standalone Fahrenheit marker. -/
theorem C2_counterexample :
    parse_bucket_question "Will the highest temperature in Fairbanks be between 10-12°C?"
      = some { min := 10, max := 12, unit := TempUnit.F }
    ∧ spec_fahrenheit_marker
        "Will the highest temperature in Fairbanks be between 10-12°C?".toList = false := by
  decide

/-- C2, amended: for every accepted question, the bucket unit is Fahrenheit
exactly when the text contains the substring "°F" or the substring "F"
anywhere — including inside a longer word; absence of both implies Celsius. -/
theorem C2_amended_unit_rule (s : String) (b : Bucket)
    (h : parse_bucket_question s = some b) :
    b.unit = TempUnit.F ↔ hasFahrenheitMark s.toList = true := by
  have hu := (parse_bucket_question_cases s b h).1
  by_cases hf : hasFahrenheitMark s.toList = true
  · simp [hf] at hu
    simp [hu, hf]
  · simp [hf] at hu
    simp [hu, hf]

/-- C2 witness: the amended rule at a concrete accepted question. -/
theorem C2_amended_unit_rule_witness :
    ({ min := -999, max := 41, unit := TempUnit.F } : Bucket).unit = TempUnit.F
      ↔ hasFahrenheitMark "Will it be 41°F or below tomorrow?".toList = true :=
  C2_amended_unit_rule "Will it be 41°F or below tomorrow?" _ (by decide)

/-! ## Claim C5 — bucket ordering invariant -/

/-- C5, counterexample: the between-phrasing copies the two numerals without
reordering, so a question listing them high-to-low yields `min > max`. -/
theorem C5_counterexample :
    parse_bucket_question "Will the highest temperature in NYC be between 50-40°F?"
      = some { min := 50, max := 40, unit := TempUnit.F }
    ∧ ¬ ((50 : ℚ) ≤ 40) := by
  decide

/-- C5, amended: an accepted bucket satisfies `min ≤ max` unless the numerals
in the question text are out of order, in exactly one of three ways: an
"or below" numeral under -999, an "or higher" numeral over 999, or a
"between N1-N2" pair with N2 < N1 copied verbatim from the text. -/
theorem C5_amended_min_le_max (s : String) (b : Bucket)
    (h : parse_bucket_question s = some b) :
    b.min ≤ b.max
    ∨ (b.min = -999 ∧ b.max < -999)
    ∨ (b.max = 999 ∧ 999 < b.min)
    ∨ (∃ v w, searchBetween s.toList = some (v, w) ∧ b.min = v ∧ b.max = w ∧ w < v) := by
  rcases (parse_bucket_question_cases s b h).2 with
    ⟨v, _, hmin, hmax⟩ | ⟨v, _, hmin, hmax⟩ | ⟨v, w, hvw, hmin, hmax⟩
  · rcases le_or_lt b.min b.max with hle | hlt
    · exact Or.inl hle
    · exact Or.inr (Or.inl ⟨hmin, by rw [hmin] at hlt; exact hmax ▸ hlt⟩)
  · rcases le_or_lt b.min b.max with hle | hlt
    · exact Or.inl hle
    · exact Or.inr (Or.inr (Or.inl ⟨hmax, by rw [hmax] at hlt; exact hmin ▸ hlt⟩))
  · rcases le_or_lt b.min b.max with hle | hlt
    · exact Or.inl hle
    · exact Or.inr (Or.inr (Or.inr ⟨v, w, hvw, hmin, hmax,
        by rw [hmin, hmax] at hlt; exact hlt⟩))

/-- C5 witness: the amended statement at a concrete accepted question. -/
theorem C5_amended_min_le_max_witness :
    ({ min := 42, max := 43, unit := TempUnit.F } : Bucket).min
        ≤ ({ min := 42, max := 43, unit := TempUnit.F } : Bucket).max
    ∨ (({ min := 42, max := 43, unit := TempUnit.F } : Bucket).min = -999
        ∧ ({ min := 42, max := 43, unit := TempUnit.F } : Bucket).max < -999)
    ∨ (({ min := 42, max := 43, unit := TempUnit.F } : Bucket).max = 999
        ∧ 999 < ({ min := 42, max := 43, unit := TempUnit.F } : Bucket).min)
    ∨ (∃ v w, searchBetween "It should be between 42-43°F I think".toList = some (v, w)
        ∧ ({ min := 42, max := 43, unit := TempUnit.F } : Bucket).min = v
        ∧ ({ min := 42, max := 43, unit := TempUnit.F } : Bucket).max = w ∧ w < v) :=
  C5_amended_min_le_max "It should be between 42-43°F I think" _ (by decide)

/-! ## Claim C7 — Kelly scaling and negative edge -/

/-- C7: for `f ∈ (0,1]`, the fractional Kelly stake scales linearly in the
bankroll fraction on the open unit square of (probability, price), and any
non-positive edge `p - price ≤ 0` (in particular any input rejected by the
guards) returns a stake of 0. -/
theorem C7_kelly_scaling (p price f : ℚ) (hf0 : 0 < f) (hf1 : f ≤ 1) :
    ((0 < p ∧ p < 1 ∧ 0 < price ∧ price < 1) →
      calculate_kelly_bet p price f = f * calculate_kelly_bet p price 1)
    ∧ (p - price ≤ 0 → calculate_kelly_bet p price f = 0) := by
  constructor
  · rintro ⟨hp0, hp1, hq0, hq1⟩
    have hg1 : ¬ (price ≤ 0 ∨ 1 ≤ price) := by push_neg; exact ⟨hq0, hq1⟩
    have hg2 : ¬ (p ≤ 0 ∨ 1 ≤ p) := by push_neg; exact ⟨hp0, hp1⟩
    have hden : (0 : ℚ) < 1 - price := by linarith
    set k : ℚ := (p - price) / (1 - price) with hk
    have hklt : k < 1 := by
      rw [hk, div_lt_one hden]
      linarith
    unfold calculate_kelly_bet
    rw [if_neg hg1, if_neg hg2, if_neg hg1, if_neg hg2]
    rcases le_or_lt k 0 with hk0 | hk0
    · have hkf : k * f ≤ 0 := mul_nonpos_of_nonpos_of_nonneg hk0 hf0.le
      rw [mul_one]
      rw [max_eq_left hkf, max_eq_left hk0]
      simp [min_eq_right, zero_le_one]
    · have hkf0 : 0 ≤ k * f := le_of_lt (mul_pos hk0 hf0)
      have hkf1 : k * f ≤ k := by
        calc k * f ≤ k * 1 := by
              exact mul_le_mul_of_nonneg_left hf1 hk0.le
          _ = k := mul_one k
      rw [mul_one]
      rw [max_eq_right hkf0, max_eq_right hk0.le]
      rw [min_eq_right (le_of_lt (lt_of_le_of_lt hkf1 hklt)), min_eq_right hklt.le]
      ring
  · intro hedge
    unfold calculate_kelly_bet
    by_cases hg1 : price ≤ 0 ∨ 1 ≤ price
    · rw [if_pos hg1]
    · rw [if_neg hg1]
      by_cases hg2 : p ≤ 0 ∨ 1 ≤ p
      · rw [if_pos hg2]
      · rw [if_neg hg2]
        push_neg at hg1
        have hden : (0 : ℚ) < 1 - price := by linarith [hg1.2]
        have hk0 : (p - price) / (1 - price) ≤ 0 :=
          div_nonpos_of_nonpos_of_nonneg (by linarith) hden.le
        have hkf : (p - price) / (1 - price) * f ≤ 0 :=
          mul_nonpos_of_nonpos_of_nonneg hk0 hf0.le
        rw [max_eq_left hkf]
        simp [min_eq_right, zero_le_one]

/-- C7 witness: both conjuncts at a concrete fraction. -/
theorem C7_kelly_scaling_witness :
    ((0 < (3/5 : ℚ) ∧ (3/5 : ℚ) < 1 ∧ 0 < (2/5 : ℚ) ∧ (2/5 : ℚ) < 1) →
      calculate_kelly_bet (3/5) (2/5) (1/2) = (1/2) * calculate_kelly_bet (3/5) (2/5) 1)
    ∧ ((3/5 : ℚ) - 2/5 ≤ 0 → calculate_kelly_bet (3/5) (2/5) (1/2) = 0) :=
  C7_kelly_scaling (3/5) (2/5) (1/2) (by norm_num) (by norm_num)

/-! ## Claim C6 — behaviour at non-positive dispersion -/

/-- C6, counterexample: at dispersion -1.5 the function does not fail at all —
it silently returns a numeric value. -/
theorem C6_counterexample :
    (calculate_probability_range 0 (-1) 1 (-1.5)).isSome = true := by
  unfold calculate_probability_range
  rw [if_neg]
  · rfl
  · rw [mul_eq_zero]
    push_neg
    constructor
    · norm_num
    · positivity

/-- C6, amended: the function raises (`ZeroDivisionError` from the cdf
division, not a designed validation) exactly when the dispersion is zero; for
any negative dispersion it silently returns a numeric value. -/
theorem C6_amended_error_iff (m a b sd : ℝ) :
    calculate_probability_range m a b sd = none ↔ sd = 0 := by
  unfold calculate_probability_range
  by_cases h : sd * Real.sqrt 2 = 0
  · rw [if_pos h]
    rcases mul_eq_zero.mp h with h0 | h0
    · simp [h0]
    · have : Real.sqrt 2 ≠ 0 := by positivity
      exact absurd h0 this
  · rw [if_neg h]
    have : sd ≠ 0 := fun h0 => h (by rw [h0, zero_mul])
    simp [this]

/-- C6 witness: the amended equivalence at concrete arguments. -/
theorem C6_amended_error_iff_witness :
    calculate_probability_range 1 (-2) 2 3 = none ↔ (3 : ℝ) = 0 :=
  C6_amended_error_iff 1 (-2) 2 3

/-! ## Error-function facts

`erf` is analysed through its defining integral: monotone, odd, bounded by 1
in absolute value, below the tangent line at 0, and at least 17/20 from
`√2` on. -/

lemma continuous_gauss : Continuous fun t : ℝ => Real.exp (-t ^ 2) :=
  Real.continuous_exp.comp (continuous_pow 2).neg

lemma gauss_intervalIntegrable (a b : ℝ) :
    IntervalIntegrable (fun t : ℝ => Real.exp (-t ^ 2)) MeasureTheory.volume a b :=
  continuous_gauss.intervalIntegrable a b

lemma gaussInt_mono {x y : ℝ} (hxy : x ≤ y) :
    (∫ t in (0:ℝ)..x, Real.exp (-t ^ 2)) ≤ ∫ t in (0:ℝ)..y, Real.exp (-t ^ 2) := by
  have hadd := intervalIntegral.integral_add_adjacent_intervals
    (gauss_intervalIntegrable 0 x) (gauss_intervalIntegrable x y)
  have hpos : 0 ≤ ∫ t in x..y, Real.exp (-t ^ 2) :=
    intervalIntegral.integral_nonneg hxy fun u _ => (Real.exp_pos _).le
  linarith [hadd]

lemma gaussInt_nonneg {x : ℝ} (hx : 0 ≤ x) :
    0 ≤ ∫ t in (0:ℝ)..x, Real.exp (-t ^ 2) := by
  simpa using gaussInt_mono hx

lemma gaussInt_le (x : ℝ) :
    (∫ t in (0:ℝ)..x, Real.exp (-t ^ 2)) ≤ Real.sqrt Real.pi / 2 := by
  have hhalf : (0:ℝ) ≤ Real.sqrt Real.pi / 2 := by positivity
  rcases le_or_lt x 0 with hx | hx
  · have h0 : (∫ t in (0:ℝ)..x, Real.exp (-t ^ 2)) ≤ 0 := by
      simpa using gaussInt_mono hx
    linarith
  · have hIoc : (∫ t in (0:ℝ)..x, Real.exp (-t ^ 2))
        = ∫ t in Set.Ioc (0:ℝ) x, Real.exp (-t ^ 2) :=
      intervalIntegral.integral_of_le hx.le
    have hint : MeasureTheory.IntegrableOn (fun t : ℝ => Real.exp (-t ^ 2))
        (Set.Ioi 0) MeasureTheory.volume := by
      have h1 : MeasureTheory.Integrable fun t : ℝ => Real.exp (-1 * t ^ 2) :=
        integrable_exp_neg_mul_sq one_pos
      simpa [neg_mul, one_mul] using h1.integrableOn
    have hmono : (∫ t in Set.Ioc (0:ℝ) x, Real.exp (-t ^ 2))
        ≤ ∫ t in Set.Ioi (0:ℝ), Real.exp (-t ^ 2) := by
      apply MeasureTheory.setIntegral_mono_set hint
      · exact MeasureTheory.ae_of_all _ fun t => (Real.exp_pos _).le
      · exact (Set.Ioc_subset_Ioi_self).eventuallyLE
    have hval : (∫ t in Set.Ioi (0:ℝ), Real.exp (-t ^ 2)) = Real.sqrt Real.pi / 2 := by
      have h := integral_gaussian_Ioi 1
      simpa [neg_mul, one_mul] using h
    rw [hIoc]
    rw [hval] at hmono
    exact hmono

lemma gaussInt_neg (x : ℝ) :
    (∫ t in (0:ℝ)..(-x), Real.exp (-t ^ 2)) = -∫ t in (0:ℝ)..x, Real.exp (-t ^ 2) := by
  have hcomp : (∫ t in (0:ℝ)..x, Real.exp (-(-t) ^ 2))
      = ∫ t in -x..-(0:ℝ), Real.exp (-t ^ 2) :=
    intervalIntegral.integral_comp_neg fun t => Real.exp (-t ^ 2)
  have heven : (∫ t in (0:ℝ)..x, Real.exp (-(-t) ^ 2))
      = ∫ t in (0:ℝ)..x, Real.exp (-t ^ 2) := by
    simp [neg_sq]
  rw [heven] at hcomp
  rw [intervalIntegral.integral_symm]
  rw [show -(0:ℝ) = 0 by norm_num] at hcomp
  rw [hcomp]

lemma two_div_sqrt_pi_nonneg : (0:ℝ) ≤ 2 / Real.sqrt Real.pi := by positivity

lemma erf_mono {x y : ℝ} (h : x ≤ y) : erf x ≤ erf y :=
  mul_le_mul_of_nonneg_left (gaussInt_mono h) two_div_sqrt_pi_nonneg

lemma erf_nonneg {x : ℝ} (hx : 0 ≤ x) : 0 ≤ erf x :=
  mul_nonneg two_div_sqrt_pi_nonneg (gaussInt_nonneg hx)

lemma erf_le_one (x : ℝ) : erf x ≤ 1 := by
  have hπ : (0:ℝ) < Real.sqrt Real.pi := Real.sqrt_pos.mpr Real.pi_pos
  calc erf x ≤ 2 / Real.sqrt Real.pi * (Real.sqrt Real.pi / 2) :=
        mul_le_mul_of_nonneg_left (gaussInt_le x) two_div_sqrt_pi_nonneg
    _ = 1 := by field_simp

lemma erf_neg (x : ℝ) : erf (-x) = -erf x := by
  unfold erf
  rw [gaussInt_neg]
  ring

lemma neg_one_le_erf (x : ℝ) : -1 ≤ erf x := by
  have h := erf_le_one (-x)
  rw [erf_neg] at h
  linarith

lemma erf_le_linear {x : ℝ} (hx : 0 ≤ x) : erf x ≤ 2 / Real.sqrt Real.pi * x := by
  have hle : (∫ t in (0:ℝ)..x, Real.exp (-t ^ 2)) ≤ x := by
    have h1 : (∫ t in (0:ℝ)..x, Real.exp (-t ^ 2)) ≤ ∫ t in (0:ℝ)..x, (1:ℝ) := by
      apply intervalIntegral.integral_mono_on hx (gauss_intervalIntegrable 0 x)
        intervalIntegrable_const
      intro t _
      exact Real.exp_le_one_iff.mpr (neg_nonpos.mpr (sq_nonneg t))
    simpa using h1
  exact mul_le_mul_of_nonneg_left hle two_div_sqrt_pi_nonneg

lemma exp_neg_sq_poly_lb {t : ℝ} (ht : t ^ 2 ≤ 2) :
    1 - t ^ 2 + t ^ 4 / 4 ≤ Real.exp (-t ^ 2) := by
  have h1 : 1 - t ^ 2 / 2 ≤ Real.exp (-(t ^ 2 / 2)) := by
    have := Real.add_one_le_exp (-(t ^ 2 / 2))
    linarith
  have h0 : 0 ≤ 1 - t ^ 2 / 2 := by linarith
  have hsq : (1 - t ^ 2 / 2) ^ 2 ≤ Real.exp (-(t ^ 2 / 2)) ^ 2 :=
    pow_le_pow_left h0 h1 2
  calc 1 - t ^ 2 + t ^ 4 / 4 = (1 - t ^ 2 / 2) ^ 2 := by ring
    _ ≤ Real.exp (-(t ^ 2 / 2)) ^ 2 := hsq
    _ = Real.exp (-t ^ 2) := by
        rw [sq, ← Real.exp_add]
        ring_nf

lemma poly_intervalIntegrable (a b : ℝ) :
    IntervalIntegrable (fun t : ℝ => 1 - t ^ 2 + t ^ 4 / 4) MeasureTheory.volume a b := by
  apply Continuous.intervalIntegrable
  continuity

lemma int_poly_sqrt2 :
    (∫ t in (0:ℝ)..Real.sqrt 2, (1 - t ^ 2 + t ^ 4 / 4)) = 8 * Real.sqrt 2 / 15 := by
  have h2 : Real.sqrt 2 ^ 2 = 2 := Real.sq_sqrt (by norm_num)
  have i1 : IntervalIntegrable (fun t : ℝ => 1 - t ^ 2) MeasureTheory.volume 0 (Real.sqrt 2) := by
    apply Continuous.intervalIntegrable
    continuity
  have i2 : IntervalIntegrable (fun t : ℝ => t ^ 4 / 4) MeasureTheory.volume 0 (Real.sqrt 2) := by
    apply Continuous.intervalIntegrable
    continuity
  have i3 : IntervalIntegrable (fun t : ℝ => (1:ℝ)) MeasureTheory.volume 0 (Real.sqrt 2) :=
    intervalIntegrable_const
  have i4 : IntervalIntegrable (fun t : ℝ => t ^ 2) MeasureTheory.volume 0 (Real.sqrt 2) := by
    apply Continuous.intervalIntegrable
    continuity
  have hsplit : (∫ t in (0:ℝ)..Real.sqrt 2, (1 - t ^ 2 + t ^ 4 / 4))
      = ((∫ t in (0:ℝ)..Real.sqrt 2, (1:ℝ)) - ∫ t in (0:ℝ)..Real.sqrt 2, t ^ 2)
        + ∫ t in (0:ℝ)..Real.sqrt 2, t ^ 4 / 4 := by
    rw [intervalIntegral.integral_add i1 i2, intervalIntegral.integral_sub i3 i4]
  rw [hsplit]
  rw [intervalIntegral.integral_div]
  rw [integral_pow, integral_pow]
  have h3 : Real.sqrt 2 ^ 3 = 2 * Real.sqrt 2 := by
    have h : Real.sqrt 2 ^ 3 = Real.sqrt 2 ^ 2 * Real.sqrt 2 := by ring
    rw [h, h2]
  have h5 : Real.sqrt 2 ^ 5 = 4 * Real.sqrt 2 := by
    have h : Real.sqrt 2 ^ 5 = (Real.sqrt 2 ^ 2) ^ 2 * Real.sqrt 2 := by ring
    rw [h, h2]
    norm_num
  simp only [intervalIntegral.integral_const, smul_eq_mul]
  rw [show (2:ℕ) + 1 = 3 from rfl, show (4:ℕ) + 1 = 5 from rfl]
  push_cast
  rw [h3, h5]
  ring

lemma erf_sqrt2_lb : (17/20 : ℝ) ≤ erf (Real.sqrt 2) := by
  have hpoly_le : (∫ t in (0:ℝ)..Real.sqrt 2, (1 - t ^ 2 + t ^ 4 / 4))
      ≤ ∫ t in (0:ℝ)..Real.sqrt 2, Real.exp (-t ^ 2) := by
    apply intervalIntegral.integral_mono_on (Real.sqrt_nonneg 2)
      (poly_intervalIntegrable 0 (Real.sqrt 2)) (gauss_intervalIntegrable 0 (Real.sqrt 2))
    intro t ht
    apply exp_neg_sq_poly_lb
    have hsq : t ^ 2 ≤ Real.sqrt 2 ^ 2 := pow_le_pow_left ht.1 ht.2 2
    rwa [Real.sq_sqrt (by norm_num : (0:ℝ) ≤ 2)] at hsq
  have hI : 8 * Real.sqrt 2 / 15 ≤ ∫ t in (0:ℝ)..Real.sqrt 2, Real.exp (-t ^ 2) := by
    rw [← int_poly_sqrt2]
    exact hpoly_le
  have hsp : (0:ℝ) < Real.sqrt Real.pi := Real.sqrt_pos.mpr Real.pi_pos
  have hπ2 : Real.sqrt Real.pi ^ 2 = Real.pi := Real.sq_sqrt Real.pi_pos.le
  have h2 : Real.sqrt 2 ^ 2 = 2 := Real.sq_sqrt (by norm_num)
  have hπlt : Real.pi < 3.1416 := Real.pi_lt_d4
  have hsq51 : (51 * Real.sqrt Real.pi) ^ 2 ≤ (64 * Real.sqrt 2) ^ 2 := by
    have e1 : (51 * Real.sqrt Real.pi) ^ 2 = 2601 * Real.pi := by
      rw [mul_pow, hπ2]
      norm_num
    have e2 : (64 * Real.sqrt 2) ^ 2 = 8192 := by
      rw [mul_pow, h2]
      norm_num
    rw [e1, e2]
    nlinarith
  have hkey51 : 51 * Real.sqrt Real.pi ≤ 64 * Real.sqrt 2 :=
    le_of_pow_le_pow_left two_ne_zero (by positivity) hsq51
  calc (17/20 : ℝ) ≤ 2 / Real.sqrt Real.pi * (8 * Real.sqrt 2 / 15) := by
        rw [div_mul_div_comm]
        rw [div_le_div_iff (by norm_num) (by positivity)]
        nlinarith [hkey51, hsp]
    _ ≤ 2 / Real.sqrt Real.pi * ∫ t in (0:ℝ)..Real.sqrt 2, Real.exp (-t ^ 2) :=
        mul_le_mul_of_nonneg_left hI two_div_sqrt_pi_nonneg
    _ = erf (Real.sqrt 2) := rfl

lemma erf_ge_of_sqrt2_le {x : ℝ} (hx : Real.sqrt 2 ≤ x) : (17/20 : ℝ) ≤ erf x :=
  le_trans erf_sqrt2_lb (erf_mono hx)

/-! ## Cumulative-distribution facts for the model -/

lemma gauss_cdf_nonneg (m sd x : ℝ) : 0 ≤ gauss_cdf m sd x := by
  unfold gauss_cdf
  have := neg_one_le_erf ((x - m) / (sd * Real.sqrt 2))
  linarith

lemma gauss_cdf_le_one (m sd x : ℝ) : gauss_cdf m sd x ≤ 1 := by
  unfold gauss_cdf
  have := erf_le_one ((x - m) / (sd * Real.sqrt 2))
  linarith

lemma gauss_cdf_mono (m sd : ℝ) {x y : ℝ} (hsd : 0 < sd) (hxy : x ≤ y) :
    gauss_cdf m sd x ≤ gauss_cdf m sd y := by
  unfold gauss_cdf
  have hden : (0:ℝ) < sd * Real.sqrt 2 := by positivity
  have harg : (x - m) / (sd * Real.sqrt 2) ≤ (y - m) / (sd * Real.sqrt 2) :=
    (div_le_div_right hden).mpr (by linarith)
  have := erf_mono harg
  linarith

/-- On the symmetric sentinel interval the probability collapses to an average
of two erf values. -/
lemma prob_value_sentinel (m sd : ℝ) :
    prob_value m (-999) 999 sd
      = 0.5 * (erf ((999 - m) / (sd * Real.sqrt 2))
          + erf ((999 + m) / (sd * Real.sqrt 2))) := by
  unfold prob_value gauss_cdf
  rw [show ((-999 : ℝ) - m) / (sd * Real.sqrt 2)
      = -((999 + m) / (sd * Real.sqrt 2)) by ring]
  rw [erf_neg]
  ring

/-! ## Claim C9 — probability in the unit interval -/

/-- C9: for every forecast mean, dispersion > 0, and ordered bounds,
`calculate_probability_range` returns a value in [0, 1]. -/
theorem C9_probability_in_unit_interval (m a b sd : ℝ) (hsd : 0 < sd) (hab : a ≤ b) :
    ∃ r, calculate_probability_range m a b sd = some r ∧ 0 ≤ r ∧ r ≤ 1 := by
  have hden : sd * Real.sqrt 2 ≠ 0 := by positivity
  refine ⟨prob_value m a b sd, ?_, ?_, ?_⟩
  · unfold calculate_probability_range
    rw [if_neg hden]
  · unfold prob_value
    have := gauss_cdf_mono m sd hsd hab
    linarith
  · unfold prob_value
    have h1 := gauss_cdf_le_one m sd b
    have h2 := gauss_cdf_nonneg m sd a
    linarith

/-- C9 witness at concrete arguments. -/
theorem C9_probability_in_unit_interval_witness :
    ∃ r, calculate_probability_range 2 (-3) 4 (3/2) = some r ∧ 0 ≤ r ∧ r ≤ 1 :=
  C9_probability_in_unit_interval 2 (-3) 4 (3/2) (by norm_num) (by norm_num)

/-! ## Claim C4 — sentinel bounds as unbounded ends

"Approximately 1.0" is formalised as lying within 0.15 of 1. -/

/-- C4, counterexample: the claim quantifies over every dispersion σ > 0, but
for a huge dispersion (here σ = 1998000 with mean 0) the sentinel interval
[-999, 999] captures almost no probability mass: the result is at most 0.001,
nowhere near 1. -/
theorem C4_counterexample :
    (calculate_probability_range 0 (-999) 999 1998000).isSome = true
    ∧ ¬ (|(calculate_probability_range 0 (-999) 999 1998000).getD 0 - 1| ≤ 0.15) := by
  have hden : (1998000 : ℝ) * Real.sqrt 2 ≠ 0 := by positivity
  have hval : calculate_probability_range 0 (-999) 999 1998000
      = some (prob_value 0 (-999) 999 1998000) := by
    unfold calculate_probability_range
    rw [if_neg hden]
  have hy0 : (0:ℝ) ≤ 999 / (1998000 * Real.sqrt 2) := by positivity
  have hr : prob_value 0 (-999) 999 1998000
      = erf (999 / (1998000 * Real.sqrt 2)) := by
    rw [prob_value_sentinel]
    norm_num
    ring
  have hsp1 : (1:ℝ) ≤ Real.sqrt Real.pi := by
    rw [show (1:ℝ) = Real.sqrt 1 by simp]
    exact Real.sqrt_le_sqrt (by linarith [Real.pi_gt_three])
  have h2div : 2 / Real.sqrt Real.pi ≤ 2 := by
    rw [div_le_iff (by positivity)]
    nlinarith
  have hs21 : (1:ℝ) ≤ Real.sqrt 2 := by
    rw [show (1:ℝ) = Real.sqrt 1 by simp]
    exact Real.sqrt_le_sqrt (by norm_num)
  have hy1 : 999 / (1998000 * Real.sqrt 2) ≤ 0.0005 := by
    rw [div_le_iff (by positivity)]
    nlinarith
  have herf_le : erf (999 / (1998000 * Real.sqrt 2)) ≤ 0.001 := by
    calc erf (999 / (1998000 * Real.sqrt 2))
        ≤ 2 / Real.sqrt Real.pi * (999 / (1998000 * Real.sqrt 2)) := erf_le_linear hy0
      _ ≤ 2 * (999 / (1998000 * Real.sqrt 2)) :=
          mul_le_mul_of_nonneg_right h2div hy0
      _ ≤ 0.001 := by linarith
  have herf0 : 0 ≤ erf (999 / (1998000 * Real.sqrt 2)) := erf_nonneg hy0
  constructor
  · rw [hval]
    rfl
  · rw [hval]
    simp only [Option.getD_some]
    rw [hr]
    intro hcontra
    rw [abs_of_nonpos (by linarith)] at hcontra
    linarith

/-- When both sentinels are at least two dispersions from the mean, the
probability over `[-999, 999]` lies in `[17/20, 1]`. -/
lemma prob_value_sentinel_bounds (m sd : ℝ) (hsd : 0 < sd)
    (h1 : 2 * sd ≤ 999 - m) (h2 : 2 * sd ≤ 999 + m) :
    17/20 ≤ prob_value m (-999) 999 sd ∧ prob_value m (-999) 999 sd ≤ 1 := by
  rw [prob_value_sentinel]
  have hdpos : (0:ℝ) < sd * Real.sqrt 2 := by positivity
  have hmulself : Real.sqrt 2 * (sd * Real.sqrt 2) = 2 * sd := by
    calc Real.sqrt 2 * (sd * Real.sqrt 2) = Real.sqrt 2 * Real.sqrt 2 * sd := by ring
      _ = 2 * sd := by rw [Real.mul_self_sqrt (by norm_num : (0:ℝ) ≤ 2)]
  have harg2 : Real.sqrt 2 ≤ (999 - m) / (sd * Real.sqrt 2) := by
    rw [le_div_iff hdpos, hmulself]
    exact h1
  have harg1 : Real.sqrt 2 ≤ (999 + m) / (sd * Real.sqrt 2) := by
    rw [le_div_iff hdpos, hmulself]
    exact h2
  have e2 := erf_ge_of_sqrt2_le harg2
  have e1 := erf_ge_of_sqrt2_le harg1
  have u2 := erf_le_one ((999 - m) / (sd * Real.sqrt 2))
  have u1 := erf_le_one ((999 + m) / (sd * Real.sqrt 2))
  constructor
  · linarith
  · linarith

/-- C4, amended: the sentinel bounds do behave as unbounded ends whenever they
sit at least two dispersions away from the mean: if σ > 0 and
`2σ ≤ 999 − m` and `2σ ≤ 999 + m`, the returned probability is within 0.15 of
1.0 (the counterexample shows some restriction of this kind is forced). -/
theorem C4_amended_sentinel_range (m sd : ℝ) (hsd : 0 < sd)
    (h1 : 2 * sd ≤ 999 - m) (h2 : 2 * sd ≤ 999 + m) :
    ∃ r, calculate_probability_range m (-999) 999 sd = some r ∧ |r - 1| ≤ 0.15 := by
  have hden : sd * Real.sqrt 2 ≠ 0 := by positivity
  refine ⟨prob_value m (-999) 999 sd, ?_, ?_⟩
  · unfold calculate_probability_range
    rw [if_neg hden]
  · obtain ⟨hlo, hhi⟩ := prob_value_sentinel_bounds m sd hsd h1 h2
    rw [abs_le]
    constructor
    · linarith
    · linarith

/-- C4 witness: the amended statement at concrete mean 0 and dispersion 1. -/
theorem C4_amended_sentinel_range_witness :
    ∃ r, calculate_probability_range 0 (-999) 999 1 = some r ∧ |r - 1| ≤ 0.15 :=
  C4_amended_sentinel_range 0 1 (by norm_num) (by norm_num) (by norm_num)

/-! ## Engine infrastructure lemmas -/

/-- With the default dispersion the probability call never raises. -/
lemma cpr_default (m a b : ℝ) :
    calculate_probability_range m a b FORECAST_STD_DEV_C
      = some (prob_value m a b FORECAST_STD_DEV_C) := by
  unfold calculate_probability_range FORECAST_STD_DEV_C
  rw [if_neg (by positivity)]

/-- Membership in a successful loop result is per-market emission. -/
lemma pyLoop_ok_mem {α β : Type _} (f : α → Except PyErr (Option β)) :
    ∀ (l : List α) (rs : List β), pyLoop f l = .ok rs →
      ∀ r, r ∈ rs ↔ ∃ m ∈ l, f m = .ok (some r) := by
  intro l
  induction l with
  | nil =>
    intro rs h r
    unfold pyLoop at h
    cases h
    simp
  | cons m rest ih =>
    intro rs h r
    unfold pyLoop at h
    cases hf : f m with
    | error e => rw [hf] at h; cases h
    | ok o =>
      rw [hf] at h
      cases o with
      | none =>
        dsimp only at h
        rw [ih rs h r]
        constructor
        · rintro ⟨x, hx, hfx⟩
          exact ⟨x, List.mem_cons_of_mem _ hx, hfx⟩
        · rintro ⟨x, hx, hfx⟩
          rcases List.mem_cons.mp hx with rfl | hx2
          · rw [hf] at hfx
            cases hfx
          · exact ⟨x, hx2, hfx⟩
      | some r0 =>
        dsimp only at h
        cases hrest : pyLoop f rest with
        | error e => rw [hrest] at h; cases h
        | ok rs0 =>
          rw [hrest] at h
          cases h
          constructor
          · intro hmem
            rcases List.mem_cons.mp hmem with rfl | hmem2
            · exact ⟨m, List.mem_cons_self m rest, hf⟩
            · rcases (ih rs0 hrest r).mp hmem2 with ⟨x, hx, hfx⟩
              exact ⟨x, List.mem_cons_of_mem _ hx, hfx⟩
          · rintro ⟨x, hx, hfx⟩
            rcases List.mem_cons.mp hx with rfl | hx2
            · rw [hf] at hfx
              cases hfx
              exact List.mem_cons_self _ _
            · exact List.mem_cons_of_mem _ (((ih rs0 hrest r).mpr ⟨x, hx2, hfx⟩))

/-- A loop whose body never raises returns `ok`. -/
lemma pyLoop_ok_of_all_ok {α β : Type _} (f : α → Except PyErr (Option β)) :
    ∀ l : List α, (∀ m ∈ l, ∃ x, f m = .ok x) → ∃ rs, pyLoop f l = .ok rs := by
  intro l
  induction l with
  | nil => exact fun _ => ⟨[], rfl⟩
  | cons m rest ih =>
    intro h
    obtain ⟨x, hx⟩ := h m (List.mem_cons_self m rest)
    obtain ⟨rs, hrs⟩ := ih fun a ha => h a (List.mem_cons_of_mem _ ha)
    cases x with
    | none => exact ⟨rs, by unfold pyLoop; rw [hx]; exact hrs⟩
    | some r => exact ⟨r :: rs, by unfold pyLoop; rw [hx, hrs]⟩

/-- Inversion of a successful analysis: the three loops succeeded and the
result fields are their sorted collections. -/
lemma calculate_ev_ok_inv (event : Event) (fmax fmin : ℝ) (res : EvResult)
    (h : calculate_ev_for_event event fmax fmin = .ok res) :
    ∃ recs cands shorts,
      pyLoop (longBody fmax) event.markets = .ok recs
      ∧ pyLoop (blanketBody fmax) event.markets = .ok cands
      ∧ pyLoop (shortBody fmax) event.markets = .ok shorts
      ∧ res = { bets := sortLongsByEvDesc recs,
                strategy := blanketStrategy (sortCandsByMinC cands),
                shorts := sortShortsByEvDesc shorts } := by
  unfold calculate_ev_for_event at h
  cases hl : pyLoop (longBody fmax) event.markets with
  | error e => rw [hl] at h; cases h
  | ok recs =>
    rw [hl] at h
    dsimp only at h
    cases hb : pyLoop (blanketBody fmax) event.markets with
    | error e => rw [hb] at h; cases h
    | ok cands =>
      rw [hb] at h
      dsimp only at h
      cases hs : pyLoop (shortBody fmax) event.markets with
      | error e => rw [hs] at h; cases h
      | ok shorts =>
        rw [hs] at h
        cases h
        exact ⟨recs, cands, shorts, rfl, rfl, rfl, rfl⟩

/-- Inversion of the short-pass quote: a resolved `price_buy_no` comes from a
present, parseable, positive `bestBid`. -/
lemma shortQuote_some_inv (bestBid : Option String) (pbn : ℚ) (imp : Option ℚ)
    (h : shortQuote bestBid = (some pbn, imp)) :
    ∃ s bid, bestBid = some s ∧ pyFloat s = some bid ∧ 0 < bid
      ∧ pbn = 1 - bid ∧ imp = some bid := by
  unfold shortQuote at h
  cases hs : bestBid with
  | none => rw [hs] at h; cases h
  | some s =>
    rw [hs] at h
    dsimp only at h
    cases hb : pyFloat s with
    | none => rw [hb] at h; cases h
    | some bid =>
      rw [hb] at h
      dsimp only at h
      by_cases hpos : 0 < bid
      · rw [if_pos hpos] at h
        injection h with h1 h2
        injection h1 with h1
        exact ⟨s, bid, rfl, hb, hpos, h1.symm, h2.symm⟩
      · rw [if_neg hpos] at h
        cases h

/-! ## Claim C3 — short-pass emission -/

/-- C3: (a) the short-pass body emits a recommendation for a market exactly
when its question parses to a bucket, a `bestBid` quote is present, parses,
and is positive (fallback-only markets are excluded), the derived
`price_against = 1 − bid` is not above 0.995, and the short EV
`(1 − probability_for) − price_against` exceeds 0.10; (b) in a successful
analysis the emitted shorts are precisely the per-market emissions. -/
theorem C3_short_pass (fmax : ℝ) :
    (∀ market : Market,
      ((∃ r, shortBody fmax market = .ok (some r))
        ↔ ∃ b s bid, parse_bucket_question market.question = some b
            ∧ market.bestBid = some s
            ∧ pyFloat s = some bid
            ∧ 0 < bid
            ∧ ¬ ((1 - bid : ℚ) > 0.995)
            ∧ (1 - prob_value fmax (to_celsius b.min b.unit) (to_celsius b.max b.unit)
                  FORECAST_STD_DEV_C) - (((1 - bid : ℚ)) : ℝ) > 0.10))
    ∧ (∀ (event : Event) (fmin : ℝ) (res : EvResult),
        calculate_ev_for_event event fmax fmin = .ok res →
        ∀ r, r ∈ res.shorts ↔ ∃ m ∈ event.markets, shortBody fmax m = .ok (some r)) := by
  constructor
  · intro market
    constructor
    · rintro ⟨r, hr⟩
      unfold shortBody at hr
      cases hp : parse_bucket_question market.question with
      | none =>
        rw [hp] at hr
        simp at hr
      | some bucket =>
        rw [hp] at hr
        dsimp only at hr
        rw [cpr_default] at hr
        dsimp only at hr
        cases hq : shortQuote market.bestBid with
        | mk pbn? imp =>
          rw [hq] at hr
          cases pbn? with
          | some pbn =>
            dsimp only at hr
            obtain ⟨s, bid, hs, hb, hpos, hpbn, _himp⟩ :=
              shortQuote_some_inv market.bestBid pbn imp hq
            subst hpbn
            unfold shortCheck at hr
            by_cases h995 : (1 - bid : ℚ) > 0.995
            · rw [if_pos h995] at hr
              simp at hr
            · rw [if_neg h995] at hr
              by_cases hev : (1 - prob_value fmax (to_celsius bucket.min bucket.unit)
                  (to_celsius bucket.max bucket.unit) FORECAST_STD_DEV_C)
                  - (((1 - bid : ℚ)) : ℝ) > 0.10
              · exact ⟨bucket, s, bid, rfl, hs, hb, hpos, h995, hev⟩
              · rw [if_neg hev] at hr
                simp at hr
          | none =>
            dsimp only at hr
            cases hj1 : jsonStrList (market.outcomes.getD "[]") with
            | none =>
              rw [hj1] at hr
              simp at hr
            | some outcomes =>
              rw [hj1] at hr
              dsimp only at hr
              cases hj2 : jsonStrList (market.outcomePrices.getD "[]") with
              | none =>
                rw [hj2] at hr
                simp at hr
              | some outcome_prices =>
                rw [hj2] at hr
                dsimp only at hr
                cases hfb : fallbackYesPrice outcomes outcome_prices with
                | none =>
                  rw [hfb] at hr
                  simp at hr
                | some p =>
                  rw [hfb] at hr
                  dsimp only at hr
                  by_cases hbb : market.bestBid.isSome = true
                  · rw [if_pos hbb] at hr
                    simp at hr
                  · rw [if_neg hbb] at hr
                    simp at hr
    · rintro ⟨b, s, bid, hp, hs, hb, hpos, h995, hev⟩
      have hq : shortQuote market.bestBid = (some (1 - bid), some bid) := by
        unfold shortQuote
        rw [hs]
        dsimp only
        rw [hb]
        dsimp only
        rw [if_pos hpos]
      unfold shortBody
      rw [hp]
      dsimp only
      rw [cpr_default]
      dsimp only
      rw [hq]
      dsimp only
      unfold shortCheck
      rw [if_neg h995, if_pos hev]
      exact ⟨_, rfl⟩
  · intro event fmin res h r
    obtain ⟨recs, cands, shorts, _hl, _hb, hs, hres⟩ :=
      calculate_ev_ok_inv event fmax fmin res h
    subst hres
    dsimp only
    unfold sortShortsByEvDesc
    rw [List.mem_insertionSort]
    exact pyLoop_ok_mem _ _ _ hs r

/-- C3 witness: the event-level half at an empty concrete event. -/
theorem C3_short_pass_witness :
    ∀ r, r ∈ ({ bets := [], strategy := none, shorts := [] } : EvResult).shorts
      ↔ ∃ m ∈ ({ title := "empty", markets := [] } : Event).markets,
          shortBody 5 m = .ok (some r) :=
  (C3_short_pass 5).2 { title := "empty", markets := [] } 0
    { bets := [], strategy := none, shorts := [] } rfl

/-! ## Blanket-pass inversion lemmas -/

/-- An emitted coverage candidate comes from a parsed bucket whose converted
interval strictly overlaps the ±1.5σ window and a resolved price that is not
≤ 0, and carries exactly the source fields. -/
lemma blanketBody_some_inv (fmax : ℝ) (m : Market) (c : BlanketCand)
    (h : blanketBody fmax m = .ok (some c)) :
    ∃ b price, parse_bucket_question m.question = some b
      ∧ ((to_celsius b.min b.unit : ℚ) : ℝ) < fmax + 1.5 * FORECAST_STD_DEV_C
      ∧ ((to_celsius b.max b.unit : ℚ) : ℝ) > fmax - 1.5 * FORECAST_STD_DEV_C
      ∧ blanketPrice m = .ok (some price)
      ∧ ¬ (price ≤ 0)
      ∧ c = { bucket := b, min_c := to_celsius b.min b.unit,
              max_c := to_celsius b.max b.unit, price := price,
              prob := prob_value fmax (to_celsius b.min b.unit)
                (to_celsius b.max b.unit) FORECAST_STD_DEV_C,
              ev := prob_value fmax (to_celsius b.min b.unit)
                  (to_celsius b.max b.unit) FORECAST_STD_DEV_C - (price : ℝ),
              market_question := m.question } := by
  unfold blanketBody at h
  cases hp : parse_bucket_question m.question with
  | none =>
    rw [hp] at h
    simp at h
  | some b =>
    rw [hp] at h
    dsimp only at h
    by_cases hov : ((to_celsius b.min b.unit : ℚ) : ℝ) < fmax + 1.5 * FORECAST_STD_DEV_C
        ∧ ((to_celsius b.max b.unit : ℚ) : ℝ) > fmax - 1.5 * FORECAST_STD_DEV_C
    · rw [if_pos hov] at h
      rw [cpr_default] at h
      dsimp only at h
      cases hbp : blanketPrice m with
      | error e =>
        rw [hbp] at h
        simp at h
      | ok po =>
        rw [hbp] at h
        cases po with
        | none =>
          dsimp only at h
          simp at h
        | some price =>
          dsimp only at h
          unfold blanketCheck at h
          by_cases hple : price ≤ 0
          · rw [if_pos hple] at h
            simp at h
          · rw [if_neg hple] at h
            injection h with h1
            injection h1 with h1
            exact ⟨b, price, rfl, hov.1, hov.2, rfl, hple, h1.symm⟩
    · rw [if_neg hov] at h
      simp at h

/-- Converse construction for the coverage candidate. -/
lemma blanketBody_some_of (fmax : ℝ) (m : Market) (b : Bucket) (price : ℚ)
    (hp : parse_bucket_question m.question = some b)
    (hov1 : ((to_celsius b.min b.unit : ℚ) : ℝ) < fmax + 1.5 * FORECAST_STD_DEV_C)
    (hov2 : ((to_celsius b.max b.unit : ℚ) : ℝ) > fmax - 1.5 * FORECAST_STD_DEV_C)
    (hbp : blanketPrice m = .ok (some price))
    (hple : ¬ (price ≤ 0)) :
    ∃ c, blanketBody fmax m = .ok (some c) := by
  unfold blanketBody
  rw [hp]
  dsimp only
  rw [if_pos ⟨hov1, hov2⟩]
  rw [cpr_default]
  dsimp only
  rw [hbp]
  dsimp only
  unfold blanketCheck
  rw [if_neg hple]
  exact ⟨_, rfl⟩

/-- A nonempty list of positive terms has positive sum. -/
lemma sum_map_pos {α : Type _} (l : List α) (f : α → ℝ) (hne : l ≠ [])
    (hpos : ∀ x ∈ l, 0 < f x) : 0 < (l.map f).sum := by
  cases l with
  | nil => exact absurd rfl hne
  | cons a t =>
    have h0 : 0 ≤ (t.map f).sum := by
      apply List.sum_nonneg
      intro x hx
      rcases List.mem_map.mp hx with ⟨y, hy, rfl⟩
      exact (hpos y (List.mem_cons_of_mem _ hy)).le
    simp only [List.map_cons, List.sum_cons]
    have := hpos a (List.mem_cons_self a t)
    linarith

/-! ## Claim C8 — blanket strategy emission -/

/-- C8: in a successful analysis, a BlanketStrategy is emitted iff the
coverage-candidate collection is non-empty and the sum of the per-candidate
EVs `probability − price` exceeds 0.05; the emitted strategy lists the bucket
of each candidate in ascending `min_c` order and stores
`total_ev = total_prob − total_cost`; candidates are exactly the markets whose
parsed bucket strictly overlaps the ±1.5σ window around the forecast and
whose resolved price is positive. -/
theorem C8_blanket_strategy (event : Event) (fmax fmin : ℝ) (res : EvResult)
    (h : calculate_ev_for_event event fmax fmin = .ok res) :
    ∀ cands, pyLoop (blanketBody fmax) event.markets = .ok cands →
      ((res.strategy.isSome = true
          ↔ sortCandsByMinC cands ≠ []
            ∧ ((sortCandsByMinC cands).map fun c => c.ev).sum > 0.05)
        ∧ (∀ st, res.strategy = some st →
            st.buckets = (sortCandsByMinC cands).map (fun c => c.bucket)
            ∧ st.total_ev = st.total_prob - st.total_cost
            ∧ st.total_cost = ((sortCandsByMinC cands).map fun c => ((c.price : ℝ))).sum
            ∧ st.total_prob = ((sortCandsByMinC cands).map fun c => c.prob).sum
            ∧ List.Pairwise (fun c₁ c₂ : BlanketCand => c₁.min_c ≤ c₂.min_c)
                (sortCandsByMinC cands))
        ∧ (∀ c, c ∈ cands ↔ ∃ m ∈ event.markets, blanketBody fmax m = .ok (some c))
        ∧ (∀ m : Market, (∃ c, blanketBody fmax m = .ok (some c))
            ↔ ∃ b, parse_bucket_question m.question = some b
                ∧ ((to_celsius b.min b.unit : ℚ) : ℝ) < fmax + 1.5 * FORECAST_STD_DEV_C
                ∧ ((to_celsius b.max b.unit : ℚ) : ℝ) > fmax - 1.5 * FORECAST_STD_DEV_C
                ∧ ∃ price, blanketPrice m = .ok (some price) ∧ ¬ (price ≤ 0))) := by
  intro cands hcands
  obtain ⟨recs, cands2, shorts, _hl, hb2, _hs, hres⟩ :=
    calculate_ev_ok_inv event fmax fmin res h
  have hceq : cands2 = cands := by
    rw [hcands] at hb2
    injection hb2 with h2
    exact h2.symm
  rw [hceq] at hres
  subst hres
  dsimp only
  refine ⟨?_, ?_, ?_, ?_⟩
  · unfold blanketStrategy
    by_cases hemp : (sortCandsByMinC cands).isEmpty
    · rw [if_pos hemp]
      simp only [Option.isSome_none]
      constructor
      · intro hfalse
        cases hfalse
      · rintro ⟨hne, _⟩
        exact absurd (List.isEmpty_iff.mp hemp) hne
    · rw [if_neg hemp]
      dsimp only
      by_cases hev : ((sortCandsByMinC cands).map fun c => c.ev).sum > 0.05
      · rw [if_pos hev]
        simp only [Option.isSome_some, true_iff]
        exact ⟨fun hnil => hemp (by rw [hnil]; rfl), hev⟩
      · rw [if_neg hev]
        simp only [Option.isSome_none]
        constructor
        · intro hfalse
          cases hfalse
        · rintro ⟨_, hev2⟩
          exact absurd hev2 hev
  · intro st hst
    unfold blanketStrategy at hst
    by_cases hemp : (sortCandsByMinC cands).isEmpty
    · rw [if_pos hemp] at hst
      cases hst
    · rw [if_neg hemp] at hst
      dsimp only at hst
      by_cases hev : ((sortCandsByMinC cands).map fun c => c.ev).sum > 0.05
      · rw [if_pos hev] at hst
        cases hst
        refine ⟨rfl, rfl, rfl, rfl, ?_⟩
        haveI : IsTotal BlanketCand (fun a b => a.min_c ≤ b.min_c) :=
          ⟨fun a b => le_total _ _⟩
        haveI : IsTrans BlanketCand (fun a b => a.min_c ≤ b.min_c) :=
          ⟨fun _ _ _ h1 h2 => le_trans h1 h2⟩
        exact List.sorted_insertionSort (fun a b : BlanketCand => a.min_c ≤ b.min_c) cands
      · rw [if_neg hev] at hst
        cases hst
  · exact pyLoop_ok_mem _ _ _ hcands
  · intro m
    constructor
    · rintro ⟨c, hc⟩
      obtain ⟨b, price, hp, hov1, hov2, hbp, hple, _⟩ := blanketBody_some_inv fmax m c hc
      exact ⟨b, hp, hov1, hov2, price, hbp, hple⟩
    · rintro ⟨b, hp, hov1, hov2, price, hbp, hple⟩
      exact blanketBody_some_of fmax m b price hp hov1 hov2 hbp hple

/-! ### A concrete analysed event with an emitted strategy

`W_event` holds one market whose bucket spans the whole sentinel range at ask
0.01: its blanket strategy is provably emitted, which grounds the C8 and C10
witnesses in a run where the hypotheses all hold non-vacuously. -/

/-- Bounds on the probability of the all-covering bucket. -/
lemma W_prob_bounds : 17/20 ≤ W_prob ∧ W_prob ≤ 1 := by
  have hc1 : (((-999 : ℚ)) : ℝ) = -999 := by norm_num
  have hc2 : (((999 : ℚ)) : ℝ) = 999 := by norm_num
  unfold W_prob
  rw [hc1, hc2]
  apply prob_value_sentinel_bounds
  · norm_num [FORECAST_STD_DEV_C]
  · norm_num [FORECAST_STD_DEV_C]
  · norm_num [FORECAST_STD_DEV_C]

lemma W_parse : parse_bucket_question W_market.question = some W_bucket := by decide

lemma W_ask_parse : pyFloat "0.01" = some (1/100) := by
  simp [pyFloat, skipWs, digitsToNat]
  norm_num

lemma W_bid_parse : pyFloat "0.9" = some (9/10) := by
  simp [pyFloat, skipWs, digitsToNat]

/-- The long pass emits `W_longrec` on `W_market` at forecast 0. -/
lemma W_longBody : longBody 0 W_market = .ok (some W_longrec) := by
  have hlq : longQuote W_market.bestAsk W_market.bestBid = some (1/100) := by
    unfold longQuote W_market
    dsimp only
    exact W_ask_parse
  have hlp : longPrice W_market = .ok (some (1/100)) := by
    unfold longPrice
    rw [hlq]
  unfold longBody
  rw [W_parse]
  dsimp only [W_bucket, to_celsius]
  rw [cpr_default]
  dsimp only
  rw [hlp]
  dsimp only
  unfold longCheck
  rw [if_pos (by norm_num : (0:ℚ) < 1/100)]
  rw [if_pos ?hev]
  case hev =>
    have := W_prob_bounds.1
    have hc : (((1/100 : ℚ)) : ℝ) = 1/100 := by norm_num
    unfold W_prob at this
    rw [hc]
    linarith
  rfl

/-- The blanket pass collects `W_cand` on `W_market` at forecast 0. -/
lemma W_blanketBody : blanketBody 0 W_market = .ok (some W_cand) := by
  have hbp : blanketPrice W_market = .ok (some (1/100)) := by
    unfold blanketPrice
    have hak : askQuote W_market.bestAsk = some (1/100) := by
      unfold askQuote W_market
      dsimp only
      exact W_ask_parse
    rw [hak]
  unfold blanketBody
  rw [W_parse]
  dsimp only [W_bucket, to_celsius]
  rw [if_pos ?hov]
  case hov =>
    constructor
    · push_cast
      norm_num [FORECAST_STD_DEV_C]
    · push_cast
      norm_num [FORECAST_STD_DEV_C]
  rw [cpr_default]
  dsimp only
  rw [hbp]
  dsimp only
  unfold blanketCheck
  rw [if_neg (by norm_num : ¬ ((1/100 : ℚ) ≤ 0))]
  rfl

/-- The short pass skips `W_market`: the bid is firm, so the short EV is
below the 0.10 bar. -/
lemma W_shortBody : shortBody 0 W_market = .ok none := by
  have hq : shortQuote W_market.bestBid = (some (1 - 9/10), some (9/10)) := by
    unfold shortQuote W_market
    dsimp only
    rw [W_bid_parse]
    dsimp only
    rw [if_pos (by norm_num : (0:ℚ) < 9/10)]
  unfold shortBody
  rw [W_parse]
  dsimp only [W_bucket, to_celsius]
  rw [cpr_default]
  dsimp only
  rw [hq]
  dsimp only
  unfold shortCheck
  rw [if_neg (by norm_num : ¬ ((1 - 9/10 : ℚ) > 0.995))]
  rw [if_neg ?hev]
  case hev =>
    have := W_prob_bounds.1
    have hc : (((1 - 9/10 : ℚ)) : ℝ) = 1/10 := by norm_num
    unfold W_prob at this
    rw [hc]
    intro hgt
    linarith

/-- The blanket loop over `W_event`. -/
lemma W_blanket_loop : pyLoop (blanketBody 0) W_event.markets = .ok [W_cand] := by
  show pyLoop (blanketBody 0) [W_market] = .ok [W_cand]
  unfold pyLoop
  rw [W_blanketBody]
  rfl

/-- The full analysis of `W_event` at forecast 0. -/
lemma W_eval : calculate_ev_for_event W_event 0 0 = .ok W_res := by
  have hlongs : pyLoop (longBody 0) W_event.markets = .ok [W_longrec] := by
    show pyLoop (longBody 0) [W_market] = .ok [W_longrec]
    unfold pyLoop
    rw [W_longBody]
    rfl
  have hshorts : pyLoop (shortBody 0) W_event.markets = .ok [] := by
    show pyLoop (shortBody 0) [W_market] = .ok []
    unfold pyLoop
    rw [W_shortBody]
    rfl
  unfold calculate_ev_for_event
  rw [hlongs]
  dsimp only
  rw [W_blanket_loop]
  dsimp only
  rw [hshorts]
  rfl

/-- The analysed result does carry a strategy, namely `W_strat`. -/
lemma W_strategy_some : W_res.strategy = some W_strat := by
  show blanketStrategy (sortCandsByMinC [W_cand]) = some W_strat
  have hsort : sortCandsByMinC [W_cand] = [W_cand] := rfl
  unfold blanketStrategy
  rw [if_neg ?hne]
  case hne =>
    rw [hsort]
    decide
  dsimp only
  rw [if_pos ?hev]
  case hev =>
    rw [hsort]
    have := W_prob_bounds.1
    have hc : (((1/100 : ℚ)) : ℝ) = 1/100 := by norm_num
    simp only [List.map_cons, List.map_nil, List.sum_cons, List.sum_nil]
    unfold W_cand
    dsimp only
    rw [hc]
    linarith
  rfl

/-- C8 witness: the emission equivalence at the concrete analysed event
`W_event`, whose candidate list is non-empty and whose strategy is emitted. -/
theorem C8_blanket_strategy_witness :
    W_res.strategy.isSome = true
      ↔ sortCandsByMinC [W_cand] ≠ []
        ∧ ((sortCandsByMinC [W_cand]).map fun c => c.ev).sum > 0.05 :=
  ((C8_blanket_strategy W_event 0 0 W_res W_eval) [W_cand] W_blanket_loop).1

/-! ## Claim C10 — emitted strategies have positive cost and finite ROI -/

/-- C10: every emitted BlanketStrategy has `total_cost > 0` — each candidate
is admitted only with a strictly positive resolved price — so the `"Inf%"`
sentinel branch is unreachable and the reported ROI is the finite number
`total_ev / total_cost × 100`. -/
theorem C10_blanket_roi_finite (event : Event) (fmax fmin : ℝ) (res : EvResult)
    (h : calculate_ev_for_event event fmax fmin = .ok res) :
    ∀ st, res.strategy = some st →
      0 < st.total_cost ∧ ∃ x, st.roi_display = RoiDisplay.finite x := by
  obtain ⟨recs, cands, shorts, _hl, hb, _hs, hres⟩ :=
    calculate_ev_ok_inv event fmax fmin res h
  subst hres
  dsimp only
  intro st hst
  unfold blanketStrategy at hst
  by_cases hemp : (sortCandsByMinC cands).isEmpty
  · rw [if_pos hemp] at hst
    cases hst
  · rw [if_neg hemp] at hst
    dsimp only at hst
    by_cases hev : ((sortCandsByMinC cands).map fun c => c.ev).sum > 0.05
    · rw [if_pos hev] at hst
      have hcost : (0:ℝ) < ((sortCandsByMinC cands).map fun c => ((c.price : ℝ))).sum := by
        apply sum_map_pos
        · intro hnil
          rw [hnil] at hemp
          exact hemp rfl
        · intro c hc
          have hc2 : c ∈ cands := by
            unfold sortCandsByMinC at hc
            exact List.mem_insertionSort _ |>.mp hc
          obtain ⟨m, _hm, hbody⟩ := (pyLoop_ok_mem _ _ _ hb c).mp hc2
          obtain ⟨b, price, _, _, _, _, hple, hceq⟩ := blanketBody_some_inv fmax m c hbody
          rw [hceq]
          dsimp only
          push_neg at hple
          exact_mod_cast hple
      cases hst
      dsimp only
      refine ⟨hcost, ?_⟩
      rw [if_pos hcost]
      exact ⟨_, rfl⟩
    · rw [if_neg hev] at hst
      cases hst

/-- C10 witness: the concrete emitted strategy of `W_event` has positive
total cost and a finite ROI. -/
theorem C10_blanket_roi_finite_witness :
    0 < W_strat.total_cost ∧ ∃ x, W_strat.roi_display = RoiDisplay.finite x :=
  C10_blanket_roi_finite W_event 0 0 W_res W_eval W_strat W_strategy_some

/-! ## Claim C1 — the analysis is not exception-free -/

/-- C1: contrary to the claim, `calculate_ev_for_event` raises on a market
whose `bestBid` is present but non-numeric while its `outcomes` and
`outcomePrices` are well formed and contain "Yes": the short pass leaves
`price_buy_no` as `None` and the comparison `price_buy_no > 0.995` raises
`TypeError`, aborting the whole event analysis instead of skipping the
market. -/
theorem C1_short_pass_crash :
    calculate_ev_for_event C1_event 5 0 = .error PyErr.typeError := by
  have hparse : parse_bucket_question C1_market.question
      = some { min := -999, max := 41, unit := TempUnit.F } := by decide
  have ho : jsonStrList (C1_market.outcomes.getD "[]") = some ["Yes", "No"] := by decide
  have hop : jsonStrList (C1_market.outcomePrices.getD "[]") = some ["0.5", "0.5"] := by
    decide
  obtain ⟨x, hx⟩ : ∃ x, fallbackYesPrice ["Yes", "No"] ["0.5", "0.5"] = some x := ⟨_, rfl⟩
  have hq : shortQuote C1_market.bestBid = (none, none) := by decide
  have hshort : shortBody 5 C1_market = .error PyErr.typeError := by
    unfold shortBody
    rw [hparse]
    dsimp only
    rw [cpr_default]
    dsimp only
    rw [hq]
    dsimp only
    rw [ho]
    dsimp only
    rw [hop]
    dsimp only
    rw [hx]
    dsimp only
    rfl
  have hfallback : fallbackPrice C1_market = .ok (some x) := by
    unfold fallbackPrice
    rw [ho]
    dsimp only
    rw [hop]
    dsimp only
    rw [hx]
  have hlongOk : ∃ y, longBody 5 C1_market = .ok y := by
    unfold longBody
    rw [hparse]
    dsimp only
    rw [cpr_default]
    dsimp only
    have hlp : longPrice C1_market = .ok (some x) := by
      unfold longPrice
      have hlq : longQuote C1_market.bestAsk C1_market.bestBid = none := rfl
      rw [hlq]
      exact hfallback
    rw [hlp]
    dsimp only
    exact ⟨_, rfl⟩
  have hblanketOk : ∃ y, blanketBody 5 C1_market = .ok y := by
    unfold blanketBody
    rw [hparse]
    dsimp only
    by_cases hov : ((to_celsius (-999 : ℚ) TempUnit.F : ℚ) : ℝ) < 5 + 1.5 * FORECAST_STD_DEV_C
        ∧ ((to_celsius (41 : ℚ) TempUnit.F : ℚ) : ℝ) > 5 - 1.5 * FORECAST_STD_DEV_C
    · rw [if_pos hov]
      rw [cpr_default]
      dsimp only
      have hbp : blanketPrice C1_market = .ok (some x) := by
        unfold blanketPrice
        have hak : askQuote C1_market.bestAsk = none := rfl
        rw [hak]
        exact hfallback
      rw [hbp]
      dsimp only
      exact ⟨_, rfl⟩
    · rw [if_neg hov]
      exact ⟨_, rfl⟩
  have hlongs : ∃ rs, pyLoop (longBody 5) C1_event.markets = .ok rs := by
    apply pyLoop_ok_of_all_ok
    intro m hm
    have hm2 : m = C1_market := by simpa [C1_event] using hm
    subst hm2
    exact hlongOk
  have hblankets : ∃ cs, pyLoop (blanketBody 5) C1_event.markets = .ok cs := by
    apply pyLoop_ok_of_all_ok
    intro m hm
    have hm2 : m = C1_market := by simpa [C1_event] using hm
    subst hm2
    exact hblanketOk
  obtain ⟨rs, hrs⟩ := hlongs
  obtain ⟨cs, hcs⟩ := hblankets
  have hsl : pyLoop (shortBody 5) C1_event.markets = .error PyErr.typeError := by
    show pyLoop (shortBody 5) [C1_market] = _
    unfold pyLoop
    rw [hshort]
  unfold calculate_ev_for_event
  rw [hrs]
  dsimp only
  rw [hcs]
  dsimp only
  rw [hsl]

end WeatherArb
